import Mathlib

/-!
Verification of the WWARA repeater-coordination core against its code.

The development shallowly embeds the Python sources:
  * `rule.py`    — the `Rule` record and its containment matcher,
  * `channel.py` — the `Channel` record (constructor, equality, inversion,
                   name property, access string),
  * `wwara/qa.py` — the QA validator `test`,
  * `wwara/plan.py` — the `REPEATERS` band-plan table,
  * `wwara_opengd77.py` — the `_dedup_names` canonical-naming pass.

Python `Decimal` values are exact decimal fractions; they are embedded as an
explicit fraction type `Decimal` (integer numerator, natural denominator,
comparisons by cross multiplication) so that every definition is executable
by the kernel.  All comparisons the sources perform on `Decimal` values are
value comparisons, never identity, matching `Decimal.__eq__` semantics.
-/

namespace WWARA

/-- Exact decimal fraction standing for Python's `decimal.Decimal`.  The value
denoted is `num / den`; every constructor and operation below keeps `den`
positive.  Arithmetic on such fractions is exact, as it is for `Decimal` on
the magnitudes this code base handles. -/
structure Decimal where
  num : Int
  den : Nat
  deriving DecidableEq, Repr

namespace Decimal

/-- Embeds an integer literal. -/
def ofInt (n : Int) : Decimal := ⟨n, 1⟩

instance : OfNat Decimal n := ⟨⟨n, 1⟩⟩

/-- Denoted rational value of a fraction (the semantics of the embedding). -/
def toRat (x : Decimal) : ℚ := (x.num : ℚ) / (x.den : ℚ)

/-- Value equality, as `Decimal.__eq__` compares values (`1 == 1.0`). -/
def deq (x y : Decimal) : Bool := x.num * y.den == y.num * x.den

/-- Value comparison `x <= y`. -/
def dle (x y : Decimal) : Bool := x.num * y.den ≤ y.num * x.den

/-- Value comparison `x < y`. -/
def dlt (x y : Decimal) : Bool := x.num * y.den < y.num * x.den

/-- Exact addition. -/
def add (x y : Decimal) : Decimal := ⟨x.num * y.den + y.num * x.den, x.den * y.den⟩

/-- Exact subtraction. -/
def sub (x y : Decimal) : Decimal := ⟨x.num * y.den - y.num * x.den, x.den * y.den⟩

/-- Exact multiplication. -/
def mul (x y : Decimal) : Decimal := ⟨x.num * y.num, x.den * y.den⟩

/-- Exact division (sign moved into the numerator so `den` stays positive
whenever the divisor is nonzero). -/
def div (x y : Decimal) : Decimal :=
  if y.num < 0 then ⟨-(x.num * y.den), x.den * y.num.natAbs⟩
  else ⟨x.num * y.den, x.den * y.num.natAbs⟩

/-- Integer quotient of `x / y` truncated toward zero, as `Decimal` division
underlying `%` truncates. -/
def truncQuot (x y : Decimal) : Int := Int.tdiv (x.num * y.den) (y.num * x.den)

/-- Remainder `x % y` of Python `Decimal`: `x - y * trunc(x / y)` (the
remainder carries the sign of the dividend). -/
def dmod (x y : Decimal) : Decimal := sub x (mul y (ofInt (truncQuot x y)))

/-- Python truthiness of a `Decimal`: zero is falsy. -/
def truthy (x : Decimal) : Bool := !(deq x 0)

theorem deq_refl (x : Decimal) : deq x x = true := by simp [deq]

end Decimal

/-- Python truthiness of an optional `Decimal` field (`None` and zero falsy). -/
def truthyD : Option Decimal → Bool
  | none => false
  | some x => Decimal.truthy x

/-- Python truthiness of an optional string field (`None` and `""` falsy). -/
def truthyS : Option String → Bool
  | none => false
  | some s => !s.isEmpty

/-- The `x or None` idiom on an optional `Decimal`-valued argument. -/
def orNoneD (x : Option Decimal) : Option Decimal := if truthyD x then x else none

/-- The `x or None` idiom on an optional string argument. -/
def orNoneS (x : Option String) : Option String := if truthyS x then x else none

/-- One band-plan segment, from `rule.py` (`Rule.__init__`): inclusive low
and high bounds in MHz, signed offset in MHz, spacing in kHz, maximum
bandwidth in kHz.  `Rule.__eq__` compares all five fields by value. -/
structure Rule where
  low : Decimal
  high : Decimal
  offset : Decimal
  spacing : Decimal
  bandwidth : Decimal
  deriving DecidableEq, Repr

/-- Value equality of rules (`Rule.__eq__`), used for dict keying of the
diagnostics mapping. -/
def ruleEqB (r s : Rule) : Bool :=
  Decimal.deq r.low s.low && Decimal.deq r.high s.high &&
  Decimal.deq r.offset s.offset && Decimal.deq r.spacing s.spacing &&
  Decimal.deq r.bandwidth s.bandwidth

theorem ruleEqB_refl (r : Rule) : ruleEqB r r = true := by
  simp [ruleEqB, Decimal.deq_refl]

/-- The channel's diagnostics mapping `channel.rules`: a Python dict from
`Rule` to the set of satisfied criteria names, modelled as an association
list in insertion order (criteria sets as lists of distinct names). -/
abbrev RulesList := List (Rule × List String)

/-- Dict assignment `rules[r] = v`: replaces the value at an existing key in
place, otherwise appends the new binding. -/
def setEntry (rs : RulesList) (r : Rule) (v : List String) : RulesList :=
  if rs.any (fun p => ruleEqB p.1 r) then
    rs.map (fun p => if ruleEqB p.1 r then (p.1, v) else p)
  else
    rs ++ [(r, v)]

/-- Dict lookup `rules.get(r)`. -/
def lookupRule (rs : RulesList) (r : Rule) : Option (List String) :=
  (rs.find? (fun p => ruleEqB p.1 r)).map (fun p => p.2)

/-- One coordinated repeater pair, from `channel.py` (`Channel`): the state
an instance holds after `__init__`.  String-valued attributes that Python
passes through unparsed (`p25_nac`, `dstar_mode`, `nxdn_ran`, codes) are
`Option String`; `Decimal`-valued ones are `Option Decimal`.  `name_length`
is the class attribute of the same name (256 on `Channel` itself, overridden
by export subclasses). -/
structure Channel where
  call : Option String
  output : Decimal
  input : Decimal
  bandwidth : Decimal
  modes : List String
  output_tone : Option Decimal
  input_tone : Option Decimal
  output_code : Option String
  input_code : Option String
  p25_phase : Option Decimal
  p25_nac : Option String
  dstar_mode : Option String
  nxdn_ran : Option String
  dmr_cc : Option Decimal
  c4fm_dsq : Option Decimal
  location : Option String
  latitude : Option Decimal
  longitude : Option Decimal
  rx_only : Bool
  rules : RulesList
  _name : Option String
  _number : Nat
  name_length : Nat
  deriving DecidableEq, Repr

namespace Channel

/-- The derived `offset` property: `input - output`. -/
def offset (c : Channel) : Decimal := Decimal.sub c.input c.output

end Channel

/-- Effective spacing used by `Rule.__contains__`:
`(self.spacing / 1000) or 1` — the spacing converted from kHz to MHz, with
`1` substituted when that value is zero (`or` on a falsy `Decimal`). -/
def effSpacing (r : Rule) : Decimal :=
  let s := Decimal.div r.spacing ⟨1000, 1⟩
  if Decimal.truthy s then s else 1

/-- `Rule.__contains__(self, channel)` from `rule.py`, as a function of the
rule, the channel and the channel's current diagnostics dict: returns the
boolean result together with the updated dict (the Python method mutates
`channel.rules`). -/
def ruleApply (r : Rule) (c : Channel) (rs : RulesList) : Bool × RulesList :=
  if Decimal.dle r.low c.output && Decimal.dle c.output r.high then
    if Decimal.deq c.offset r.offset then
      if Decimal.deq (Decimal.dmod (Decimal.sub c.output r.low) (effSpacing r)) 0 then
        if Decimal.dle c.bandwidth r.bandwidth then
          (true, setEntry rs r ["offset", "spacing", "bandwidth"])
        else
          (false, setEntry rs r ["offset", "spacing"])
      else
        (false, setEntry rs r ["offset"])
    else
      (false, setEntry rs r [])
  else
    (false, rs)

/-- The spec's four-condition characterisation of rule containment (§4.1 /
§8 of the spec): bounds, exact offset equality, spacing alignment by exact
decimal modulo against the effective spacing, and bandwidth limit. -/
def matchesSpec (r : Rule) (c : Channel) : Prop :=
  Decimal.dle r.low c.output = true ∧ Decimal.dle c.output r.high = true ∧
  Decimal.deq c.offset r.offset = true ∧
  Decimal.deq (Decimal.dmod (Decimal.sub c.output r.low) (effSpacing r)) 0 = true ∧
  Decimal.dle c.bandwidth r.bandwidth = true

/-- C1: the rule-containment check returns true iff all four spec conditions
hold, in exact decimal arithmetic, for every rule, channel and incoming
diagnostics state. -/
theorem rule_contains_iff_spec (r : Rule) (c : Channel) (rs : RulesList) :
    (ruleApply r c rs).1 = true ↔ matchesSpec r c := by
  unfold ruleApply matchesSpec
  cases h1 : Decimal.dle r.low c.output <;>
  cases h2 : Decimal.dle c.output r.high <;>
  cases h3 : Decimal.deq c.offset r.offset <;>
  cases h4 : Decimal.deq (Decimal.dmod (Decimal.sub c.output r.low) (effSpacing r)) 0 <;>
  cases h5 : Decimal.dle c.bandwidth r.bandwidth <;>
  simp_all

theorem lookup_setEntry (rs : RulesList) (r : Rule) (v : List String) :
    lookupRule (setEntry rs r v) r = some v := by
  by_cases h : rs.any (fun p => ruleEqB p.1 r)
  · simp only [setEntry, if_pos h, lookupRule]
    induction rs with
    | nil => simp at h
    | cons p t ih =>
      by_cases hp : ruleEqB p.1 r
      · simp [List.find?, hp]
      · have ht : t.any (fun p => ruleEqB p.1 r) = true := by
          simp only [List.any_cons, hp, Bool.false_or] at h
          exact h
        simp only [List.map_cons, List.find?]
        rw [if_neg hp]
        simp only [hp, Bool.false_eq_true, not_false_eq_true]
        exact ih ht
  · simp only [setEntry, if_neg h, lookupRule]
    induction rs with
    | nil => simp [List.find?, ruleEqB_refl]
    | cons p t ih =>
      have hp : ruleEqB p.1 r = false := by
        by_contra hc
        have hc2 : ruleEqB p.1 r = true := by
          cases hb : ruleEqB p.1 r
          · exact absurd hb hc
          · rfl
        exact h (by simp [List.any_cons, hc2])
      have ht : ¬ t.any (fun p => ruleEqB p.1 r) = true := by
        intro hc
        exact h (by simp [List.any_cons, hc])
      simp only [List.cons_append, List.find?, hp]
      exact ih ht

/-- C5: frame effect of the containment check.  When the output lies outside
the rule's bounds the check returns false and leaves the diagnostics dict
untouched; when it lies inside, an entry for the rule is always recorded,
and if the offset check then fails the recorded criteria set is empty. -/
theorem rule_frame (r : Rule) (c : Channel) (rs : RulesList) :
    (¬ (Decimal.dle r.low c.output && Decimal.dle c.output r.high) = true →
      ruleApply r c rs = (false, rs)) ∧
    ((Decimal.dle r.low c.output && Decimal.dle c.output r.high) = true →
      (lookupRule (ruleApply r c rs).2 r).isSome = true ∧
      (Decimal.deq c.offset r.offset = false →
        lookupRule (ruleApply r c rs).2 r = some [])) := by
  constructor
  · intro h
    simp [ruleApply, h]
  · intro h
    constructor
    · unfold ruleApply
      rw [if_pos h]
      cases h3 : Decimal.deq c.offset r.offset <;>
      cases h4 : Decimal.deq (Decimal.dmod (Decimal.sub c.output r.low) (effSpacing r)) 0 <;>
      cases h5 : Decimal.dle c.bandwidth r.bandwidth <;>
      simp [lookup_setEntry]
    · intro hoff
      unfold ruleApply
      rw [if_pos h]
      simp [hoff, lookup_setEntry]

/-- Witness for `rule_frame`: both branches exercised on concrete data — a
rule `[10, 20] offset 0 spacing 0 bandwidth 25` against a channel at output
30 (out of bounds: untouched dict), and against a channel at output 15 with
offset 1 (in bounds, wrong offset: empty criteria set recorded). -/
theorem rule_frame_witness :
    (ruleApply ⟨10, 20, 0, 0, 25⟩
      { call := none, output := 30, input := 30, bandwidth := 25, modes := ["FM"],
        output_tone := none, input_tone := none, output_code := none, input_code := none,
        p25_phase := none, p25_nac := none, dstar_mode := none, nxdn_ran := none,
        dmr_cc := none, c4fm_dsq := none, location := none, latitude := none,
        longitude := none, rx_only := false, rules := [], _name := none, _number := 0,
        name_length := 256 } [] = (false, [])) ∧
    (lookupRule (ruleApply ⟨10, 20, 0, 0, 25⟩
      { call := none, output := 15, input := 16, bandwidth := 25, modes := ["FM"],
        output_tone := none, input_tone := none, output_code := none, input_code := none,
        p25_phase := none, p25_nac := none, dstar_mode := none, nxdn_ran := none,
        dmr_cc := none, c4fm_dsq := none, location := none, latitude := none,
        longitude := none, rx_only := false, rules := [], _name := none, _number := 0,
        name_length := 256 } []).2 ⟨10, 20, 0, 0, 25⟩ = some []) :=
  ⟨(rule_frame _ _ _).1 (by decide),
   ((rule_frame _ _ _).2 (by decide)).2 (by decide)⟩

/-- Python `str.strip()`: whitespace removed from both ends. -/
def pyStrip (s : String) : String :=
  ⟨((s.data.dropWhile Char.isWhitespace).reverse.dropWhile Char.isWhitespace).reverse⟩

/-- Arguments of `Channel.__init__` (defaults as in the Python signature).
Numeric arguments arrive as decimal strings or `Decimal`s in Python and are
modelled as `Option Decimal`, `none` standing for `None` or an empty string;
their truthiness is value truthiness (zero falsy), which coincides with the
code's uses. -/
structure CArgs where
  call : Option String := none
  output : Decimal
  input : Option Decimal := none
  offset : Option Decimal := none
  bandwidth : Decimal := 25
  modes : List String := ["FM"]
  output_tone : Option Decimal := none
  input_tone : Option Decimal := none
  output_code : Option String := none
  input_code : Option String := none
  p25_phase : Option Decimal := none
  p25_nac : Option String := none
  dstar_mode : Option String := none
  nxdn_ran : Option String := none
  dmr_cc : Option Decimal := none
  c4fm_dsq : Option Decimal := none
  location : Option String := none
  latitude : Option Decimal := none
  longitude : Option Decimal := none
  rx_only : Bool := false

/-- `Channel.__init__` from `channel.py`of the state it establishes:
the call sign is stripped (or dropped when falsy); `input` is taken as
given, else derived from `offset`, else equal to `output`; tone, code, NAC,
sub-mode and RAN attributes are normalised through `x or None` and stay
absent when not supplied; `dmr_cc` and `c4fm_dsq` are additionally defaulted
to `Decimal(0)` when their mode is declared; the diagnostics dict starts
empty, `_name` unset, `_number` zero, `name_length` the class value 256. -/
def mkChannel (a : CArgs) : Channel :=
  let call : Option String :=
    match a.call with
    | some s => if s.isEmpty then none else some (pyStrip s)
    | none => none
  let input : Decimal :=
    if truthyD a.input then a.input.getD 0
    else if truthyD a.offset then Decimal.add a.output (a.offset.getD 0)
    else a.output
  let modes : List String := if a.modes.isEmpty then [] else a.modes
  let dmr_cc0 : Option Decimal := orNoneD a.dmr_cc
  let dmr_cc : Option Decimal :=
    if "DMR" ∈ modes then (if truthyD dmr_cc0 then dmr_cc0 else some 0) else dmr_cc0
  let c4fm_dsq0 : Option Decimal := orNoneD a.c4fm_dsq
  let c4fm_dsq : Option Decimal :=
    if "C4FM" ∈ modes then (if truthyD c4fm_dsq0 then c4fm_dsq0 else some 0) else c4fm_dsq0
  { call := call
    output := a.output
    input := input
    bandwidth := a.bandwidth
    modes := modes
    output_tone := orNoneD a.output_tone
    input_tone := orNoneD a.input_tone
    output_code := orNoneS a.output_code
    input_code := orNoneS a.input_code
    p25_phase := orNoneD a.p25_phase
    p25_nac := orNoneS a.p25_nac
    dstar_mode := orNoneS a.dstar_mode
    nxdn_ran := orNoneS a.nxdn_ran
    dmr_cc := dmr_cc
    c4fm_dsq := c4fm_dsq
    location := orNoneS a.location
    latitude := orNoneD a.latitude
    longitude := orNoneD a.longitude
    rx_only := a.rx_only || false
    rules := []
    _name := none
    _number := 0
    name_length := 256 }

/-- `Channel.__invert__`: a shallow copy with output and input swapped. -/
def invert (c : Channel) : Channel := { c with output := c.input, input := c.output }

/-- `Channel.__eq__`: the deliberately coarse value equality over call,
output, input, input tone, input code, NAC, RAN, colour code and DSQ.
Optional `Decimal` fields compare as `None == None` or by value. -/
def optDeq (x y : Option Decimal) : Bool :=
  match x, y with
  | none, none => true
  | some a, some b => Decimal.deq a b
  | _, _ => false

/-- Coarse channel equality (`Channel.__eq__`), also backing membership in
the validator's `SEEN` set. -/
def chanEqB (c d : Channel) : Bool :=
  c.call == d.call && Decimal.deq c.output d.output && Decimal.deq c.input d.input &&
  optDeq c.input_tone d.input_tone && c.input_code == d.input_code &&
  c.p25_nac == d.p25_nac && c.nxdn_ran == d.nxdn_ran &&
  optDeq c.dmr_cc d.dmr_cc && optDeq c.c4fm_dsq d.c4fm_dsq

theorem optDeq_refl (x : Option Decimal) : optDeq x x = true := by
  cases x <;> simp [optDeq, Decimal.deq_refl]

/-- C8: channel inversion is an involution — inverting twice yields a
channel equal (under `Channel.__eq__`) to the original. -/
theorem invert_involutive (c : Channel) : chanEqB (invert (invert c)) c = true := by
  simp [invert, chanEqB, optDeq_refl, Decimal.deq_refl]

/-- C3 counterexample: a channel constructed with mode `P25` and no NAC
supplied keeps `p25_nac` absent (`None`) — the attribute does not default to
a defined "open" value, contrary to the claim that every mode-specific
attribute of a declared mode does. -/
theorem p25_nac_stays_absent :
    "P25" ∈ (mkChannel { output := ⟨4429, 10⟩, modes := ["P25"] }).modes ∧
    (mkChannel { output := ⟨4429, 10⟩, modes := ["P25"] }).p25_nac = none := by
  constructor
  · decide
  · rfl

/-- C3 as amended: only the DMR colour code and the C4FM DSQ default to a
defined zero value when their mode is declared and no value is supplied; the
FM tones/codes, P25 NAC, D-STAR sub-mode and NXDN RAN remain absent when not
supplied. -/
theorem mode_attribute_defaults (a : CArgs) :
    ("DMR" ∈ a.modes → a.dmr_cc = none → (mkChannel a).dmr_cc = some 0) ∧
    ("C4FM" ∈ a.modes → a.c4fm_dsq = none → (mkChannel a).c4fm_dsq = some 0) ∧
    (a.p25_nac = none → (mkChannel a).p25_nac = none) ∧
    (a.nxdn_ran = none → (mkChannel a).nxdn_ran = none) ∧
    (a.dstar_mode = none → (mkChannel a).dstar_mode = none) ∧
    (a.output_tone = none → (mkChannel a).output_tone = none) ∧
    (a.input_tone = none → (mkChannel a).input_tone = none) ∧
    (a.output_code = none → (mkChannel a).output_code = none) ∧
    (a.input_code = none → (mkChannel a).input_code = none) := by
  refine ⟨?_, ?_, ?_, ?_, ?_, ?_, ?_, ?_, ?_⟩
  · intro hm hd
    have hne : ¬ a.modes = [] := by
      intro hE
      rw [hE] at hm
      simp at hm
    simp [mkChannel, hd, orNoneD, truthyD]
    exact ⟨hne, hm⟩
  · intro hm hd
    have hne : ¬ a.modes = [] := by
      intro hE
      rw [hE] at hm
      simp at hm
    simp [mkChannel, hd, orNoneD, truthyD]
    exact ⟨hne, hm⟩
  all_goals intro hd
  all_goals simp [mkChannel, hd, orNoneD, orNoneS, truthyD, truthyS]

/-- Witness for `mode_attribute_defaults`: a channel declaring both DMR and
C4FM with no auxiliary attribute supplied gets colour code 0 and DSQ 0,
while the other attributes stay absent. -/
theorem mode_attribute_defaults_witness :
    (mkChannel { output := ⟨4429, 10⟩, modes := ["DMR", "C4FM"] }).dmr_cc = some 0 ∧
    (mkChannel { output := ⟨4429, 10⟩, modes := ["DMR", "C4FM"] }).c4fm_dsq = some 0 ∧
    (mkChannel { output := ⟨4429, 10⟩, modes := ["DMR", "C4FM"] }).p25_nac = none ∧
    (mkChannel { output := ⟨4429, 10⟩, modes := ["DMR", "C4FM"] }).nxdn_ran = none ∧
    (mkChannel { output := ⟨4429, 10⟩, modes := ["DMR", "C4FM"] }).dstar_mode = none ∧
    (mkChannel { output := ⟨4429, 10⟩, modes := ["DMR", "C4FM"] }).output_tone = none ∧
    (mkChannel { output := ⟨4429, 10⟩, modes := ["DMR", "C4FM"] }).input_tone = none ∧
    (mkChannel { output := ⟨4429, 10⟩, modes := ["DMR", "C4FM"] }).output_code = none ∧
    (mkChannel { output := ⟨4429, 10⟩, modes := ["DMR", "C4FM"] }).input_code = none := by
  have h := mode_attribute_defaults { output := ⟨4429, 10⟩, modes := ["DMR", "C4FM"] }
  exact ⟨h.1 (by decide) rfl, h.2.1 (by decide) rfl, h.2.2.1 rfl, h.2.2.2.1 rfl,
    h.2.2.2.2.1 rfl, h.2.2.2.2.2.1 rfl, h.2.2.2.2.2.2.1 rfl,
    h.2.2.2.2.2.2.2.1 rfl, h.2.2.2.2.2.2.2.2 rfl⟩

/-- The `REPEATERS` band plan from `wwara/plan.py`, in source order.  Each
entry is `Rule(low, high, offset, spacing[, bandwidth])` with the default
bandwidth `"25"` made explicit. -/
def REPEATERS : List Rule := [
  ⟨⟨2962, 100⟩, ⟨2968, 100⟩, ⟨-1, 10⟩, ⟨20, 1⟩, ⟨25, 1⟩⟩,
  ⟨⟨5281, 100⟩, ⟨5399, 100⟩, ⟨-17, 10⟩, ⟨20, 1⟩, ⟨25, 1⟩⟩,
  ⟨⟨14511, 100⟩, ⟨14519, 100⟩, ⟨-6, 10⟩, ⟨20, 1⟩, ⟨25, 1⟩⟩,
  ⟨⟨14521, 100⟩, ⟨14549, 100⟩, ⟨-6, 10⟩, ⟨20, 1⟩, ⟨25, 1⟩⟩,
  ⟨⟨1451, 10⟩, ⟨1454875, 10000⟩, ⟨-6, 10⟩, ⟨125, 10⟩, ⟨125, 10⟩⟩,
  ⟨⟨146605, 1000⟩, ⟨146605, 1000⟩, ⟨-6, 10⟩, ⟨0, 1⟩, ⟨625, 100⟩⟩,
  ⟨⟨147995, 1000⟩, ⟨147995, 1000⟩, ⟨-6, 10⟩, ⟨0, 1⟩, ⟨625, 100⟩⟩,
  ⟨⟨1464125, 10000⟩, ⟨1465, 10⟩, ⟨1, 1⟩, ⟨125, 10⟩, ⟨125, 10⟩⟩,
  ⟨⟨14662, 100⟩, ⟨147, 1⟩, ⟨-6, 10⟩, ⟨20, 1⟩, ⟨25, 1⟩⟩,
  ⟨⟨146625, 1000⟩, ⟨1469875, 10000⟩, ⟨-6, 10⟩, ⟨125, 10⟩, ⟨125, 10⟩⟩,
  ⟨⟨147, 1⟩, ⟨14738, 100⟩, ⟨6, 10⟩, ⟨20, 1⟩, ⟨25, 1⟩⟩,
  ⟨⟨146625, 1000⟩, ⟨1469875, 10000⟩, ⟨6, 10⟩, ⟨125, 10⟩, ⟨125, 10⟩⟩,
  ⟨⟨22378, 100⟩, ⟨22398, 100⟩, ⟨-16, 10⟩, ⟨20, 1⟩, ⟨25, 1⟩⟩,
  ⟨⟨22402, 100⟩, ⟨22462, 100⟩, ⟨-16, 10⟩, ⟨20, 1⟩, ⟨25, 1⟩⟩,
  ⟨⟨22468, 100⟩, ⟨22482, 100⟩, ⟨-16, 10⟩, ⟨20, 1⟩, ⟨25, 1⟩⟩,
  ⟨⟨22486, 100⟩, ⟨22498, 100⟩, ⟨-16, 10⟩, ⟨20, 1⟩, ⟨25, 1⟩⟩,
  ⟨⟨4400125, 10000⟩, ⟨4400125, 10000⟩, ⟨5, 1⟩, ⟨0, 1⟩, ⟨125, 10⟩⟩,
  ⟨⟨4400375, 10000⟩, ⟨4407875, 10000⟩, ⟨5, 1⟩, ⟨125, 10⟩, ⟨125, 10⟩⟩,
  ⟨⟨4400500, 10000⟩, ⟨4406750, 10000⟩, ⟨5, 1⟩, ⟨25, 1⟩, ⟨25, 1⟩⟩,
  ⟨⟨4409250, 10000⟩, ⟨4409750, 10000⟩, ⟨5, 1⟩, ⟨25, 1⟩, ⟨25, 1⟩⟩,
  ⟨⟨4409125, 10000⟩, ⟨4409875, 10000⟩, ⟨5, 1⟩, ⟨125, 10⟩, ⟨125, 10⟩⟩,
  ⟨⟨4410125, 10000⟩, ⟨4429875, 10000⟩, ⟨5, 1⟩, ⟨125, 10⟩, ⟨125, 10⟩⟩,
  ⟨⟨4410250, 10000⟩, ⟨4429750, 10000⟩, ⟨5, 1⟩, ⟨25, 1⟩, ⟨25, 1⟩⟩,
  ⟨⟨4430125, 10000⟩, ⟨4449875, 10000⟩, ⟨5, 1⟩, ⟨125, 10⟩, ⟨125, 10⟩⟩,
  ⟨⟨4420250, 10000⟩, ⟨4449750, 10000⟩, ⟨5, 1⟩, ⟨25, 1⟩, ⟨25, 1⟩⟩,
  ⟨⟨9272125, 10000⟩, ⟨9279875, 10000⟩, ⟨-25, 1⟩, ⟨125, 10⟩, ⟨25, 1⟩⟩,
  ⟨⟨1247, 1⟩, ⟨1252, 1⟩, ⟨0, 1⟩, ⟨25, 1⟩, ⟨25, 1⟩⟩,
  ⟨⟨1290, 1⟩, ⟨1291, 1⟩, ⟨-20, 1⟩, ⟨25, 1⟩, ⟨25, 1⟩⟩,
  ⟨⟨1290, 1⟩, ⟨1295, 1⟩, ⟨-20, 1⟩, ⟨25, 1⟩, ⟨25, 1⟩⟩]

/-- Modelled from the spec: `wwara.plan.match` is imported by `wwara/qa.py`
but its definition is not among the sources (only the `REPEATERS` table it
iterates is).  Spec §4.1: the band-plan-level match "iterates all rules,
evaluating each one (so diagnostics accumulate across the whole plan), and
returns true on the first full match" — i.e. it evaluates every rule's
containment check, threading the channel's diagnostics dict, and reports
whether some rule fully matched. -/
def matchPlan (c : Channel) (rs : RulesList) : Bool × RulesList :=
  REPEATERS.foldl
    (fun acc r =>
      let step := ruleApply r c acc.2
      (acc.1 || step.1, step.2))
    (false, rs)

/-- Plan-conformance stage of `qa.test`: `error = not match(channel)`, then
if the inverted channel matches, the error is cleared and "REVERSED" is
commented.  The inverted copy shares the original's diagnostics dict (a
shallow copy), so records from both passes accumulate in one dict, returned
as the third component. -/
def planStage (c : Channel) : Bool × List String × RulesList :=
  let p1 := matchPlan c c.rules
  let p2 := matchPlan (invert c) p1.2
  if p2.1 then (false, ["REVERSED"], p2.2) else (!p1.1, [], p2.2)

/-- Mode-presence check of `qa.test`: "NO MODES" when the mode list is empty. -/
def modesBlock (c : Channel) : Bool × List String :=
  if c.modes.isEmpty then (true, ["NO MODES"]) else (false, [])

/-- Geographic-bounds check of `qa.test`.  Modelled from the spec:
`wwara.plan.in_region` is imported by `qa.py` but absent from the sources;
spec §4.2 describes it as a configured bounding-rectangle test, so it is
passed in as an abstract predicate. -/
def regionBlock (inRegion : Channel → Bool) (c : Channel) : Bool × List String :=
  if !inRegion c then (true, ["OUT OF BOUNDS"]) else (false, [])

/-- FM tone/code consistency check of `qa.test` (truthiness of the stored
tone and code as in Python: absent, zero and empty falsy). -/
def fmBlock (c : Channel) : Bool × List String :=
  if "FM" ∈ c.modes then
    let missing : Bool × List String :=
      if !(truthyD c.input_tone || truthyS c.input_code) then (true, ["NO TONE/CODE"])
      else (false, [])
    let both : Bool × List String :=
      if truthyD c.input_tone && truthyS c.input_code then (true, ["AMBIGUOUS TONE/CODE"])
      else (false, [])
    (missing.1 || both.1, missing.2 ++ both.2)
  else
    if truthyD c.input_tone || truthyS c.input_code then (true, ["EXTRA TONE/CODE"])
    else (false, [])

/-- DMR colour-code check of `qa.test` (`is None` tests, not truthiness). -/
def dmrBlock (c : Channel) : Bool × List String :=
  if "DMR" ∈ c.modes then
    if c.dmr_cc.isNone then (true, ["NO CC"]) else (false, [])
  else
    if c.dmr_cc.isSome then (true, ["EXTRA DMR CC"]) else (false, [])

/-- C4FM DSQ/DG-ID check of `qa.test`.  With C4FM declared: a `None` DSQ
draws only the comment "NO DSQ" (no error), but the two following range
comparisons `0 <= c4fm_dsq <= 99` and `0 <= c4fm_dsq <= 126` are evaluated
unconditionally, and comparing `None` with an integer raises `TypeError`
in Python — modelled as `Except.error`.  Without C4FM, a present value is
the error "EXTRA C4FM DSQ/DG-ID". -/
def c4fmBlock (c : Channel) : Except Unit (Bool × List String) :=
  if "C4FM" ∈ c.modes then
    let cs0 : List String := if c.c4fm_dsq.isNone then ["NO DSQ"] else []
    match c.c4fm_dsq with
    | none => Except.error ()
    | some d =>
      Except.ok (false,
        cs0 ++
        (if !(Decimal.dle 0 d && Decimal.dle d ⟨99, 1⟩) then ["DG-ID OUT OF RANGE"] else []) ++
        (if !(Decimal.dle 0 d && Decimal.dle d ⟨126, 1⟩) then ["DSQ OUT OF RANGE"] else []))
  else
    if c.c4fm_dsq.isSome then Except.ok (true, ["EXTRA C4FM DSQ/DG-ID"])
    else Except.ok (false, [])

/-- P25 NAC check of `qa.test`. -/
def p25Block (c : Channel) : Bool × List String :=
  if "P25" ∈ c.modes then
    if c.p25_nac.isNone then (true, ["NO NAC"]) else (false, [])
  else
    if c.p25_nac.isSome then (true, ["EXTRA P25 NAC"]) else (false, [])

/-- NXDN RAN check of `qa.test`. -/
def nxdnBlock (c : Channel) : Bool × List String :=
  if "NXDN" ∈ c.modes then
    if c.nxdn_ran.isNone then (true, ["NO RAN"]) else (false, [])
  else
    if c.nxdn_ran.isSome then (true, ["EXTRA NXDN RAN"]) else (false, [])

/-- Membership of a channel in the validator's `SEEN` set, which compares
by the coarse `Channel.__eq__`. -/
def seenContains (seen : List Channel) (c : Channel) : Bool :=
  seen.any (fun s => chanEqB c s)

/-- Selection inside the `Channel.errors` property: the dict entry with the
largest recorded criteria set; Python's stable descending sort makes that
the earliest entry attaining the maximum. -/
def bestEntry (rs : RulesList) : Option (Rule × List String) :=
  rs.foldl
    (fun acc p =>
      match acc with
      | none => some p
      | some q => if q.2.length < p.2.length then some p else acc)
    none

/-- The `Channel.errors` property as a function of the diagnostics dict:
empty when no rule was recorded, otherwise the translation of the criteria
missing from the best entry. -/
def channelErrors (rs : RulesList) : List String :=
  match bestEntry rs with
  | none => []
  | some p =>
    (if "offset" ∈ p.2 then [] else ["WRONG OFFSET"]) ++
    (if "spacing" ∈ p.2 then [] else ["MISALIGNED"]) ++
    (if "bandwidth" ∈ p.2 then [] else ["TOO WIDE"])

/-- `wwara.qa.test` as a function of the abstract region predicate, the
current `SEEN` set and the channel: the error flag, the comment list in
emission order, and the updated `SEEN` set, or `Except.error` for the
`TypeError` of the C4FM block.  The error flag is the disjunction of the
stage flags because only the plan stage may clear it, and it does so before
any other stage contributes. -/
def test (inRegion : Channel → Bool) (seen : List Channel) (c : Channel) :
    Except Unit (Bool × List String × List Channel) :=
  let ps := planStage c
  let mb := modesBlock c
  let rb := regionBlock inRegion c
  let fb := fmBlock c
  let db := dmrBlock c
  match c4fmBlock c with
  | Except.error u => Except.error u
  | Except.ok cb =>
    let pb := p25Block c
    let nb := nxdnBlock c
    let mm : List String := if 1 < c.modes.length then ["MULTIMODE"] else []
    let dup : List String := if seenContains seen c then ["DUPLICATE"] else []
    let seen2 : List Channel := if seenContains seen c then seen else seen ++ [c]
    let errs := channelErrors ps.2.2
    let eb : Bool × List String := if errs.isEmpty then (false, []) else (true, errs)
    Except.ok
      (ps.1 || mb.1 || rb.1 || fb.1 || db.1 || cb.1 || pb.1 || nb.1 || eb.1,
       ps.2.1 ++ mb.2 ++ rb.2 ++ fb.2 ++ db.2 ++ cb.2 ++ pb.2 ++ nb.2 ++ mm ++ dup ++ eb.2,
       seen2)

theorem reversed_notin_modesBlock (c : Channel) : "REVERSED" ∉ (modesBlock c).2 := by
  unfold modesBlock
  split <;> simp

theorem reversed_notin_regionBlock (f : Channel → Bool) (c : Channel) :
    "REVERSED" ∉ (regionBlock f c).2 := by
  unfold regionBlock
  split <;> simp

theorem reversed_notin_fmBlock (c : Channel) : "REVERSED" ∉ (fmBlock c).2 := by
  unfold fmBlock
  split <;> split <;> first | (split <;> simp) | simp

theorem reversed_notin_dmrBlock (c : Channel) : "REVERSED" ∉ (dmrBlock c).2 := by
  unfold dmrBlock
  split <;> split <;> simp

theorem reversed_notin_c4fmBlock (c : Channel) (b : Bool) (l : List String)
    (h : c4fmBlock c = Except.ok (b, l)) : "REVERSED" ∉ l := by
  unfold c4fmBlock at h
  split at h
  · cases hd : c.c4fm_dsq with
    | none => rw [hd] at h; exact absurd h (by simp)
    | some d =>
      rw [hd] at h
      simp only [Except.ok.injEq, Prod.mk.injEq] at h
      rw [← h.2]
      split <;> split <;> simp [hd]
  · split at h <;>
    · simp only [Except.ok.injEq, Prod.mk.injEq] at h
      rw [← h.2]
      simp
theorem reversed_notin_p25Block (c : Channel) : "REVERSED" ∉ (p25Block c).2 := by
  unfold p25Block
  split <;> split <;> simp

theorem reversed_notin_nxdnBlock (c : Channel) : "REVERSED" ∉ (nxdnBlock c).2 := by
  unfold nxdnBlock
  split <;> split <;> simp

theorem reversed_notin_channelErrors (rs : RulesList) : "REVERSED" ∉ channelErrors rs := by
  cases hb : bestEntry rs with
  | none => simp [channelErrors, hb]
  | some p =>
    simp only [channelErrors, hb]
    split <;> split <;> split <;> simp

theorem reversed_in_planStage (c : Channel) :
    "REVERSED" ∈ (planStage c).2.1 ↔
      (matchPlan (invert c) (matchPlan c c.rules).2).1 = true := by
  simp only [planStage]
  split <;> simp_all

/-- C2 counterexample: the channel `TEST 1247.0/1247.0 FM` (a simplex pair at
1247 MHz) matches the band plan directly — rule `1247-1252 offset 0` — and
its inversion is the same pair, so `qa.test` still appends "REVERSED",
contradicting the claim that a channel matching the plan directly never
receives the "REVERSED" comment. -/
def chanSimplex : Channel :=
  mkChannel { call := some "TEST", output := ⟨1247, 1⟩, input := some ⟨1247, 1⟩,
              modes := ["FM"], input_tone := some ⟨1035, 10⟩ }

theorem reversed_despite_direct_match :
    (matchPlan chanSimplex chanSimplex.rules).1 = true ∧
    test (fun _ => true) [] chanSimplex = Except.ok (false, ["REVERSED"], [chanSimplex]) :=
  ⟨by decide, by rfl⟩

/-- C2 as amended: `qa.test` appends "REVERSED" exactly when the inverted
channel matches the band plan — whether or not the channel also matches
directly — and whenever the inverted channel matches, the plan-conformance
stage leaves the error flag cleared. -/
theorem reversed_iff_inverted_matches (inRegion : Channel → Bool) (seen : List Channel)
    (c : Channel) (e : Bool) (cs : List String) (sn : List Channel)
    (h : test inRegion seen c = Except.ok (e, cs, sn)) :
    ("REVERSED" ∈ cs ↔ (matchPlan (invert c) (matchPlan c c.rules).2).1 = true) ∧
    ((matchPlan (invert c) (matchPlan c c.rules).2).1 = true → (planStage c).1 = false) := by
  constructor
  · unfold test at h
    cases hcb : c4fmBlock c with
    | error u => rw [hcb] at h; exact absurd h (by simp)
    | ok cb =>
      rw [hcb] at h
      simp only [Except.ok.injEq, Prod.mk.injEq] at h
      obtain ⟨he, hcs, hsn⟩ := h
      subst hcs
      rw [← reversed_in_planStage c]
      have hmm : "REVERSED" ∉ (if 1 < c.modes.length then ["MULTIMODE"] else []) := by
        split <;> simp
      have hdup : "REVERSED" ∉ (if seenContains seen c then ["DUPLICATE"] else []) := by
        split <;> simp
      simp only [List.mem_append]
      simp [reversed_notin_modesBlock, reversed_notin_regionBlock, reversed_notin_fmBlock,
        reversed_notin_dmrBlock, reversed_notin_c4fmBlock c cb.1 cb.2 (by rw [hcb]),
        reversed_notin_p25Block, reversed_notin_nxdnBlock, hmm, hdup]
      intro hx
      exfalso
      revert hx
      split <;> simp [reversed_notin_channelErrors]
  · intro hm
    simp only [planStage]
    simp [hm]

/-- Witness for `reversed_iff_inverted_matches` at the simplex channel. -/
theorem reversed_iff_inverted_matches_witness :
    ("REVERSED" ∈ ["REVERSED"] ↔
      (matchPlan (invert chanSimplex) (matchPlan chanSimplex chanSimplex.rules).2).1 = true) ∧
    ((matchPlan (invert chanSimplex) (matchPlan chanSimplex chanSimplex.rules).2).1 = true →
      (planStage chanSimplex).1 = false) :=
  reversed_iff_inverted_matches (fun _ => true) [] chanSimplex false ["REVERSED"]
    [chanSimplex] (by rfl)

/-- C6: a channel equal (under the coarse channel equality) to one already
in the validator's seen set draws the comment "DUPLICATE", and the duplicate
finding alone never sets the error flag — the same channel validated against
an empty seen set yields the identical error flag. -/
theorem duplicate_comment (inRegion : Channel → Bool) (seen : List Channel)
    (c : Channel) (e : Bool) (cs : List String) (sn : List Channel)
    (hseen : seenContains seen c = true)
    (h : test inRegion seen c = Except.ok (e, cs, sn)) :
    "DUPLICATE" ∈ cs ∧
    ∃ cs2 sn2, test inRegion [] c = Except.ok (e, cs2, sn2) := by
  unfold test at h
  cases hcb : c4fmBlock c with
  | error u => rw [hcb] at h; exact absurd h (by simp)
  | ok cb =>
    rw [hcb] at h
    simp only [Except.ok.injEq, Prod.mk.injEq] at h
    obtain ⟨he, hcs, hsn⟩ := h
    subst he
    constructor
    · rw [← hcs]
      simp [hseen]
    · unfold test
      rw [hcb]
      exact ⟨_, _, rfl⟩

/-- Witness channel for `duplicate_comment`: `W7AAA 146.64/146.04 FM 103.5`,
which conforms to the plan, validated while already in the seen set. -/
def chanDup : Channel :=
  mkChannel { call := some "W7AAA", output := ⟨14664, 100⟩, input := some ⟨14604, 100⟩,
              modes := ["FM"], input_tone := some ⟨1035, 10⟩ }

theorem duplicate_comment_witness :
    "DUPLICATE" ∈ ["DUPLICATE"] ∧
    ∃ cs2 sn2, test (fun _ => true) [] chanDup = Except.ok (false, cs2, sn2) :=
  duplicate_comment (fun _ => true) [chanDup] chanDup false ["DUPLICATE"] [chanDup]
    (by decide) (by rfl)

/-- C4: for every constructed channel declaring C4FM, the DSQ field is never
absent (the constructor defaults it to `Decimal(0)`), so the C4FM block of
`qa.test` cannot raise — the DG-ID and DSQ range comparisons never compare
against `None` — and this block never sets the error flag; absence of a DSQ
could at most draw the non-fatal "NO DSQ" comment. -/
theorem c4fm_check_safe (a : CArgs) (hm : "C4FM" ∈ a.modes) :
    (mkChannel a).c4fm_dsq.isSome = true ∧
    ∃ cs, c4fmBlock (mkChannel a) = Except.ok (false, cs) := by
  have hne : ¬ a.modes = [] := by
    intro hE
    rw [hE] at hm
    simp at hm
  have hmodes : (mkChannel a).modes = a.modes := by
    simp [mkChannel, hne]
  have hie : a.modes.isEmpty = false := by
    cases hmo : a.modes
    · rw [hmo] at hm
      simp at hm
    · simp [hmo]
  have hsome : (mkChannel a).c4fm_dsq.isSome = true := by
    simp only [mkChannel]
    simp only [hie, Bool.false_eq_true, if_false, hm, if_true]
    cases hd : a.c4fm_dsq with
    | none => simp [orNoneD, truthyD]
    | some d => cases ht : d.truthy <;> simp [orNoneD, truthyD, ht]
  refine ⟨hsome, ?_⟩
  unfold c4fmBlock
  rw [hmodes, if_pos hm]
  cases hd : (mkChannel a).c4fm_dsq with
  | none => rw [hd] at hsome; simp at hsome
  | some d => exact ⟨_, rfl⟩

/-- Witness for `c4fm_check_safe`: a C4FM channel constructed with no DSQ
supplied. -/
theorem c4fm_check_safe_witness :
    (mkChannel { output := ⟨4415, 10⟩, modes := ["C4FM"] }).c4fm_dsq.isSome = true ∧
    ∃ cs, c4fmBlock (mkChannel { output := ⟨4415, 10⟩, modes := ["C4FM"] }) =
      Except.ok (false, cs) :=
  c4fm_check_safe { output := ⟨4415, 10⟩, modes := ["C4FM"] } (by decide)

/-- Python string slicing `s[:n]` (by characters, as Python slices). -/
def pyTake (s : String) (n : Nat) : String := ⟨s.data.take n⟩

/-- Python `str.rstrip(" ")`: trailing space characters (only `' '`)
removed. -/
def pyRstripSpace (s : String) : String :=
  ⟨(s.data.reverse.dropWhile (· == ' ')).reverse⟩

/-- f-string rendering of an optional string (`None` renders as "None"). -/
def optStr (x : Option String) : String := x.getD "None"

/-- The `Channel.name` property getter: when `_name` is unset it is lazily
built as `f"{self.call} {location}".rstrip(" ")` with `location or ""`;
the returned value is always `self._name[:name_length].rstrip(" ")`, also
when `_name` was overridden through the setter with an arbitrary string. -/
def nameGet (c : Channel) : String :=
  let base : String :=
    match c._name with
    | some n => n
    | none =>
      pyRstripSpace (optStr c.call ++ " " ++ (if truthyS c.location then c.location.getD "" else ""))
  pyRstripSpace (pyTake base c.name_length)

theorem length_dropWhile_le (p : Char → Bool) (l : List Char) :
    (l.dropWhile p).length ≤ l.length := by
  induction l with
  | nil => simp
  | cons a t ih =>
    by_cases hp : p a <;> simp [List.dropWhile_cons, hp]
    exact Nat.le_succ_of_le ih

theorem pyRstripSpace_idem (s : String) :
    pyRstripSpace (pyRstripSpace s) = pyRstripSpace s := by
  cases s with
  | mk l =>
    simp [pyRstripSpace, List.dropWhile_idempotent]

/-- C10: reading the `name` property always yields a string of at most
`name_length` characters with no trailing spaces (being a fixed point of
`rstrip(" ")`), for every channel state — including an externally overridden
`_name` of any length or trailing whitespace, and the lazily computed
default. -/
theorem name_bounded_and_stripped (c : Channel) :
    (nameGet c).length ≤ c.name_length ∧
    pyRstripSpace (nameGet c) = nameGet c := by
  constructor
  · show (pyRstripSpace (pyTake _ c.name_length)).length ≤ c.name_length
    unfold pyRstripSpace pyTake
    calc ((((List.take c.name_length _).reverse.dropWhile (· == ' ')).reverse) : List Char).length
        ≤ (List.take c.name_length _).reverse.length := by
          rw [List.length_reverse]
          exact length_dropWhile_le _ _
      _ ≤ c.name_length := by
          rw [List.length_reverse]
          exact List.length_take_le _ _
  · exact pyRstripSpace_idem _

/-- Rendering of a `Decimal` for f-string interpolation.  Integral values
print as their integer (as Python does for the integral `Decimal`s these
fields hold); the digits of non-integral values are immaterial to every
property proved about the access string. -/
def decStr (x : Decimal) : String :=
  if x.den == 1 then toString x.num else toString x.num ++ "/" ++ toString x.den

/-- f-string rendering of an optional `Decimal` (`None` renders "None"). -/
def optDecStr : Option Decimal → String
  | none => "None"
  | some d => decStr d

/-- Rendering of the `{tone:.1f}` format: the tone rounded to one decimal
place (half away from zero; the rounding mode is immaterial to every
property proved). -/
def fmtFix1 (x : Decimal) : String :=
  let m : Int := Int.tdiv (20 * x.num + x.den) (2 * x.den)
  toString (Int.tdiv m 10) ++ "." ++ toString (Int.tmod m 10)

/-- The list of per-mode segments the `Channel.access` property builds
before joining with " & ": FM (narrow below 25 kHz, with DCS code, CTCSS
tone or bare), ATV, P25, D-STAR, the NXDN segment guarded by the misspelled
literal "NDXN" as in the source, DMR and C4FM. -/
def accessSegments (c : Channel) : List String :=
  (if "FM" ∈ c.modes then
    [let mode : String := if Decimal.dlt c.bandwidth ⟨25, 1⟩ then "NFM" else "FM"
     if truthyS c.input_code then mode ++ " D" ++ c.input_code.getD "" ++ "N"
     else if truthyD c.input_tone then mode ++ " " ++ fmtFix1 (c.input_tone.getD 0)
     else mode]
   else []) ++
  (if "ATV" ∈ c.modes then ["ATV"] else []) ++
  (if "P25" ∈ c.modes then ["P25 " ++ optStr c.p25_nac] else []) ++
  (if "D-STAR" ∈ c.modes then ["D-STAR " ++ optStr c.dstar_mode] else []) ++
  (if "NDXN" ∈ c.modes then ["NXDN " ++ optStr c.nxdn_ran] else []) ++
  (if "DMR" ∈ c.modes then ["DMR CC" ++ optDecStr c.dmr_cc] else []) ++
  (if "C4FM" ∈ c.modes then ["C4FM " ++ optDecStr c.c4fm_dsq] else [])

/-- The `Channel.access` property: the segments joined with " & ", or
"NONE" when that string is falsy (no segment emitted). -/
def access (c : Channel) : String :=
  let s := String.intercalate " & " (accessSegments c)
  if s.isEmpty then "NONE" else s

theorem ne_take2 (a b : Char) {s : String} (h : s.data.take 2 = [a, b])
    (hne : ([a, b] : List Char) ≠ ['N', 'X']) : s.data.take 2 ≠ ['N', 'X'] := by
  rw [h]
  exact hne

theorem accessSegments_take2 (c : Channel) (h2 : "NDXN" ∉ c.modes) :
    ∀ s ∈ accessSegments c, s.data.take 2 ≠ ['N', 'X'] := by
  intro s hs
  unfold accessSegments at hs
  simp only [List.mem_append] at hs
  rcases hs with ((((((hs | hs) | hs) | hs) | hs) | hs) | hs)
  · revert hs
    split
    · simp only [List.mem_singleton]
      intro he
      subst he
      cases hb : Decimal.dlt c.bandwidth ⟨25, 1⟩ <;>
      cases hc : truthyS c.input_code <;>
      cases ht : truthyD c.input_tone <;>
      simp only [hb, hc, ht, Bool.false_eq_true, if_true, if_false] <;>
      first
      | exact ne_take2 'N' 'F' rfl (by decide)
      | exact ne_take2 'F' 'M' rfl (by decide)
    · simp
  · revert hs
    split
    · simp only [List.mem_singleton]
      intro he
      subst he
      exact ne_take2 'A' 'T' rfl (by decide)
    · simp
  · revert hs
    split
    · simp only [List.mem_singleton]
      intro he
      subst he
      exact ne_take2 'P' '2' rfl (by decide)
    · simp
  · revert hs
    split
    · simp only [List.mem_singleton]
      intro he
      subst he
      exact ne_take2 'D' '-' rfl (by decide)
    · simp
  · revert hs
    split
    · exact absurd (by assumption) h2
    · simp
  · revert hs
    split
    · simp only [List.mem_singleton]
      intro he
      subst he
      exact ne_take2 'D' 'M' rfl (by decide)
    · simp
  · revert hs
    split
    · simp only [List.mem_singleton]
      intro he
      subst he
      exact ne_take2 'C' '4' rfl (by decide)
    · simp

/-- C9: with "NXDN" among the channel's modes and the misspelled "NDXN" not
among them, the access-string segments never include the NXDN-specific
segment `"NXDN {ran}"` (for any rendered RAN value) — the rendering branch
compares against the misspelled literal and never triggers. -/
theorem nxdn_rendering_never_triggers (c : Channel)
    (h1 : "NXDN" ∈ c.modes) (h2 : "NDXN" ∉ c.modes) (r : String) :
    ("NXDN " ++ r) ∉ accessSegments c := by
  intro hmem
  exact accessSegments_take2 c h2 _ hmem rfl

/-- Witness channel for `nxdn_rendering_never_triggers`: an NXDN repeater
with RAN 1. -/
def chanNxdn : Channel :=
  mkChannel { call := some "W7NXD", output := ⟨4415, 10⟩, input := some ⟨4465, 10⟩,
              modes := ["NXDN"], nxdn_ran := some "1" }

theorem nxdn_rendering_never_triggers_witness :
    ("NXDN " ++ optStr chanNxdn.nxdn_ran) ∉ accessSegments chanNxdn :=
  nxdn_rendering_never_triggers chanNxdn (by decide) (by decide)
    (optStr chanNxdn.nxdn_ran)

/-- The `NAME_LENGTH` constant of `wwara_opengd77.py`. -/
def NAME_LENGTH : Nat := 16

/-- One export record as `_dedup_names` sees it: the dict values at the
`namek` ("Channel Name"), `typek` ("Channel Type") and `outputk`
("Rx Frequency") keys.  Other record fields are untouched by the pass. -/
structure GDEntry where
  name : String
  chType : String
  output : String
  deriving DecidableEq, Repr

/-- Python `str.rstrip("0")`. -/
def pyRstripZero (s : String) : String :=
  ⟨(s.data.reverse.dropWhile (· == '0')).reverse⟩

/-- Python `str.ljust(n)`: right-padded with spaces to at least `n`
characters. -/
def pyLjust (s : String) (n : Nat) : String :=
  s ++ ⟨List.replicate (n - s.length) ' '⟩

/-- Worker of `re.sub(" +", " ", s)`: collapses every run of spaces to a
single space (the flag records whether the previous character was a space). -/
def collapseAux : Bool → List Char → List Char
  | _, [] => []
  | prevSpace, a :: t =>
    if a == ' ' then
      if prevSpace then collapseAux true t else ' ' :: collapseAux true t
    else a :: collapseAux false t

/-- `re.sub(" +", " ", s)` of the tag-application step. -/
def collapseSpaces (s : String) : String := ⟨collapseAux false s.data⟩

/-- The collision group of a name: the entries of the batch carrying it
(`names[name]["entries"]`, in batch order). -/
def groupEntries (elist : List GDEntry) (n : String) : List GDEntry :=
  elist.filter (fun e => e.name == n)

/-- Group count of digital members (`dups["DMR"]`). -/
def dupsDigital (digital : String) (g : List GDEntry) : Nat :=
  (g.filter (fun e => e.chType == digital)).length

/-- Group count of members whose frequency starts with the given digit
(`dups["VHF"]`, `dups["220"]`, `dups["UHF"]` for "1", "2", "4"). -/
def dupsBand (pfx : String) (g : List GDEntry) : Nat :=
  (g.filter (fun e => e.output.startsWith pfx)).length

/-- The frequency-derived fallback tag:
`entry[outputk].rstrip("0").replace(".", "")[2:]`. -/
def freqTag (s : String) : String :=
  ((pyRstripZero s).replace "." "").drop 2

/-- The tag choice of `_dedup_names` for one member of a colliding group, in
the source's priority order.  A member for which no branch applies leaves
the Python variable `tag` unbound — a `NameError` on the first such entry —
modelled as `none`. -/
def tagOf (digital : String) (elist : List GDEntry) (e : GDEntry) : Option String :=
  let g := groupEntries elist e.name
  if dupsDigital digital g == 1 && e.chType == digital then some "D"
  else if dupsBand "4" g == 1 && e.output.startsWith "4" then some "U"
  else if dupsBand "2" g == 1 && e.output.startsWith "2" then some "2"
  else if dupsBand "1" g == 1 && e.output.startsWith "1" then some "V"
  else if (1 < dupsBand "4" g && e.output.startsWith "4") ||
          (1 < dupsBand "2" g && e.output.startsWith "2") ||
          (1 < dupsBand "1" g && e.output.startsWith "1") then some (freqTag e.output)
  else none

/-- The rename `_dedup_names` applies to one record: members of groups of
more than one entry get the base name padded to `NAME_LENGTH`, truncated to
`NAME_LENGTH - len(tag)`, the tag appended and space runs collapsed; other
records are left alone. -/
def renameEntry (digital : String) (elist : List GDEntry) (e : GDEntry) : Option GDEntry :=
  if 1 < (groupEntries elist e.name).length then
    (tagOf digital elist e).map (fun tag =>
      { e with name :=
          collapseSpaces (pyTake (pyLjust e.name NAME_LENGTH) (NAME_LENGTH - tag.length) ++ tag) })
  else some e

/-- Entrywise traversal failing on the first `none` (a Python `for` loop
whose body may raise). -/
def mapRename (f : GDEntry → Option GDEntry) : List GDEntry → Option (List GDEntry)
  | [] => some []
  | a :: t =>
    match f a with
    | none => none
    | some b => (mapRename f t).map (fun r => b :: r)

/-- `_dedup_names` of `wwara_opengd77.py` (the Canonical Namer): groups the
batch by current name, then renames each member of every colliding group.
Python iterates the entries sorted by `(name, Decimal(output))` and mutates
each entry in place exactly once, deciding from the groups and counts
precomputed over the original list, so the resulting contents are
independent of the iteration order and the pass is an entrywise map that
preserves batch order; the trailing verification loop only prints to stderr
and is not part of the record transformation. -/
def dedupNames (digital : String) (elist : List GDEntry) : Option (List GDEntry) :=
  mapRename (renameEntry digital elist) elist

theorem mapRename_id (f : GDEntry → Option GDEntry) (l : List GDEntry)
    (h : ∀ e ∈ l, f e = some e) : mapRename f l = some l := by
  induction l with
  | nil => rfl
  | cons a t ih =>
    have ha : f a = some a := h a (by simp)
    have ht : mapRename f t = some t := ih (fun e he => h e (by simp [he]))
    simp [mapRename, ha, ht]

theorem group_length_one_of_nodup (l : List GDEntry)
    (h : (l.map GDEntry.name).Nodup) :
    ∀ e ∈ l, (groupEntries l e.name).length = 1 := by
  induction l with
  | nil => intro e he; simp at he
  | cons a t ih =>
    have hna : a.name ∉ t.map GDEntry.name := by
      intro hc
      rw [List.map_cons] at h
      exact (List.nodup_cons.mp h).1 hc
    have hnt : (t.map GDEntry.name).Nodup := by
      rw [List.map_cons] at h
      exact (List.nodup_cons.mp h).2
    intro e he
    rcases List.mem_cons.mp he with he | he
    · subst he
      have hfil : t.filter (fun x => x.name == e.name) = [] := by
        rw [List.filter_eq_nil_iff]
        intro x hx hbeq
        exact absurd (List.mem_map.mpr ⟨x, hx, by simpa using hbeq⟩) hna
      simp [groupEntries, List.filter_cons, hfil]
    · have hne : (a.name == e.name) = false := by
        by_contra hc
        have hax : a.name = e.name := by
          cases hb : a.name == e.name
          · exact absurd hb hc
          · simpa using hb
        apply hna
        rw [hax]
        exact List.mem_map.mpr ⟨e, he, rfl⟩
      have := ih hnt e he
      simpa [groupEntries, List.filter_cons, hne] using this

/-- C7: the Canonical Namer is idempotent on de-duplicated output — on a
batch whose names are already pairwise distinct, `_dedup_names` changes no
record's name (every collision group is a singleton, so the rename loop
touches nothing and the pass returns the batch unchanged). -/
theorem dedup_idempotent_on_distinct (digital : String) (elist : List GDEntry)
    (h : (elist.map GDEntry.name).Nodup) :
    dedupNames digital elist = some elist := by
  unfold dedupNames
  apply mapRename_id
  intro e he
  unfold renameEntry
  rw [group_length_one_of_nodup elist h e he]
  simp

/-- Witness for `dedup_idempotent_on_distinct`: a batch of two records with
distinct names is returned unchanged. -/
theorem dedup_idempotent_on_distinct_witness :
    dedupNames "Digital"
      [⟨"W7AAA Seattle", "Analogue", "146.64000"⟩,
       ⟨"W7BBB Tacoma", "Digital", "441.02500"⟩] =
    some [⟨"W7AAA Seattle", "Analogue", "146.64000"⟩,
          ⟨"W7BBB Tacoma", "Digital", "441.02500"⟩] :=
  dedup_idempotent_on_distinct "Digital"
    [⟨"W7AAA Seattle", "Analogue", "146.64000"⟩,
     ⟨"W7BBB Tacoma", "Digital", "441.02500"⟩] (by decide)

end WWARA
